import Mathlib

/-!
# Verification of the MCP9808 temperature-sensor driver

Shallow embedding of `src/mcp9808.py`.  The I2C transport is modelled as a
trace of events: each driver operation is a pure function of its arguments
and of the bytes the device would answer to the reads it performs, and it
returns the list of transport events it issues (plus, for failing
validations, the raised error).  All byte values are `Nat` (the transport
delivers bytes, so theorems carry `< 256` bounds where they matter);
temperatures are `ℚ` (every value the Python code manipulates is a dyadic
rational, which binary floating point represents exactly at these scales).
-/

namespace MCP9808

/-- A transport event: a `send` of a byte buffer to the device, or a
`recv` of `n` bytes whose answer from the device was `result`. -/
inductive Ev where
  | send (buf : List Nat)
  | recv (n : Nat) (result : List Nat)
deriving DecidableEq, Repr

/-- Result of one driver operation: the transport events it issued, and
the validation error it raised (`none` on success).  In the Python source a
raised `ValueError` aborts the method before any bus access, so failing
results carry an explicit (empty) event list. -/
structure OpResult where
  events : List Ev
  err : Option String
deriving DecidableEq, Repr

-- Register pointers (mcp9808.py lines 6-13)
def REG_CONFIG : Nat := 1
def REG_TEMP_BOUNDARY_UPPER : Nat := 2
def REG_TEMP_BOUNDARY_LOWER : Nat := 3
def REG_TEMP_BOUNDARY_CRITICAL : Nat := 4
def REG_TEMP : Nat := 5
def REG_MANUFACTURER_ID : Nat := 6
def REG_DEVIDE_ID : Nat := 7
def REG_RESOLUTION : Nat := 8

-- Sensor resolution values (lines 17-20)
def TEMP_RESOLUTION_MIN : Nat := 0
def TEMP_RESOLUTION_LOW : Nat := 1
def TEMP_RESOLUTION_AVG : Nat := 2
def TEMP_RESOLUTION_MAX : Nat := 3

-- Alert selectors / polarity / output mode (lines 24-35)
def ALERT_SELECT_ALL : Nat := 0
def ALERT_SELECT_CRIT : Nat := 1
def ALERT_POLARITY_ALOW : Nat := 0
def ALERT_POLARITY_AHIGH : Nat := 1
def ALERT_OUTPUT_COMPARATOR : Nat := 0
def ALERT_OUTPUT_INTERRUPT : Nat := 1

/-- Python's `int(q)`: truncation toward zero. -/
def pyInt (q : ℚ) : Int := if 0 ≤ q then ⌊q⌋ else ⌈q⌉

/-- Python's bitwise AND `x & m` of an arbitrary integer `x` with a
nonnegative mask `m < 2^13`.  On Python's infinite two's complement,
`x & m = (x mod 2^13) & m` whenever `0 ≤ m < 2^13`.  (Lean's `%` on `Int`
is Euclidean remainder, which agrees with Python's `%` for a positive
modulus.) -/
def pyAnd13 (x : Int) (m : Nat) : Nat := (x % 8192).toNat &&& m

/-- `_check_device` (lines 82-93): read 2 bytes from the manufacturer-ID
register and require `b'\x00T'` = `[0x00, 0x54]`, then read 2 bytes from
the device-ID register and require `b'\x04\x00'` = `[0x04, 0x00]`.
`mid` and `did` are the bytes the two reads return. -/
def check_device (mid did : List Nat) : OpResult :=
  if mid ≠ [0x00, 0x54] then
    ⟨[.send [REG_MANUFACTURER_ID], .recv 2 mid], some "Invalid manufacturer ID!"⟩
  else if did ≠ [0x04, 0x00] then
    ⟨[.send [REG_MANUFACTURER_ID], .recv 2 mid,
      .send [REG_DEVIDE_ID], .recv 2 did], some "Invalid device or revision ID!"⟩
  else
    ⟨[.send [REG_MANUFACTURER_ID], .recv 2 mid,
      .send [REG_DEVIDE_ID], .recv 2 did], none⟩

/-- The new high (MSB) config byte written by `set_shutdown_mode`
(lines 106-109): `cfg[0] | 1` when entering shutdown, `cfg[0] & ~1` when
leaving it.  Python evaluates `& ~1` over unbounded two's-complement
integers; for the byte values the transport returns (`< 256`) that equals
masking with `0xFE`. -/
def shutdown_msb (shdn : Bool) (cfg0 : Nat) : Nat :=
  if shdn then cfg0 ||| 1 else cfg0 &&& 0xFE

/-- `set_shutdown_mode` (lines 95-111), with `cfg0, cfg1` the two config
bytes the read returns.  The `shdn.__class__ != bool` type check of the
source is enforced by the `Bool` argument type here. -/
def set_shutdown_mode (shdn : Bool) (cfg0 cfg1 : Nat) : List Ev :=
  [.send [REG_CONFIG], .recv 2 [cfg0, cfg1],
   .send [REG_CONFIG, shutdown_msb shdn cfg0, cfg1]]

/-- The packed alert nibble (line 134):
`(output_mode | polarity << 1 | selector << 2 | enable_alert << 3) & 0xF`. -/
def alert_bits (output_mode polarity selector enable_alert : Nat) : Nat :=
  (output_mode ||| (polarity <<< 1) ||| (selector <<< 2) ||| (enable_alert <<< 3)) &&& 0xF

/-- `set_alert_mode` (lines 113-141): validate the three enum arguments
(in source order), then read the config register and write back
`[cfg[0], (cfg[1] & 0xF0) | alert_bits]`. -/
def set_alert_mode (enable_alert : Bool) (output_mode polarity selector : Nat)
    (cfg0 cfg1 : Nat) : OpResult :=
  if output_mode ∉ [ALERT_OUTPUT_COMPARATOR, ALERT_OUTPUT_INTERRUPT] then
    ⟨[], some "Invalid output mode set."⟩
  else if selector ∉ [ALERT_SELECT_ALL, ALERT_SELECT_CRIT] then
    ⟨[], some "Invalid alert selector set."⟩
  else if polarity ∉ [ALERT_POLARITY_ALOW, ALERT_POLARITY_AHIGH] then
    ⟨[], some "Invalid alert polarity set."⟩
  else
    let ea : Nat := if enable_alert then 1 else 0
    let lsb_data := (cfg1 &&& 0xF0) ||| alert_bits output_mode polarity selector ea
    ⟨[.send [REG_CONFIG], .recv 2 [cfg0, cfg1],
      .send [REG_CONFIG, cfg0, lsb_data]], none⟩

/-- The new low (LSB) config byte written by `acknowledge_alert_irq`
(line 152): `cfg[1] | 0x20`, the interrupt-clear bit set. -/
def ack_lsb (cfg1 : Nat) : Nat := cfg1 ||| 0x20

/-- `acknowledge_alert_irq` (lines 143-153). -/
def acknowledge_alert_irq (cfg0 cfg1 : Nat) : List Ev :=
  [.send [REG_CONFIG], .recv 2 [cfg0, cfg1],
   .send [REG_CONFIG, cfg0, ack_lsb cfg1]]

/-- The 2-bit quarter-degree fraction field of `set_alert_boundary_temp`
(line 169, before the `<< 2` shift):
`((1 if frac*2 >= 1 else 0) << 1) + (1 if (frac*2 - int(frac*2))*2 >= 1 else 0)`. -/
def quarterBits (frac : ℚ) : Nat :=
  ((if 1 ≤ frac * 2 then 1 else 0) <<< 1) +
    (if 1 ≤ (frac * 2 - (pyInt (frac * 2) : ℚ)) * 2 then 1 else 0)

/-- The 13-bit word `twos_value` computed by `set_alert_boundary_temp`
(lines 164-170):
```
integral = int(value); frac = abs(value - integral)
if integral < 0: integral = (1 << 9) + integral
integral = (integral & 0x1FF) << 4
frac = quarterBits(frac) << 2
twos_value = (integral + frac if value >= 0 else integral - frac) & 0x1ffc
```
The masks `0x1FF` and `0x1ffc` are both below `2^13`, so Python's `&` on a
possibly negative left operand is `pyAnd13`. -/
def boundary_word (value : ℚ) : Nat :=
  let integral0 : Int := pyInt value
  let frac : ℚ := |value - (integral0 : ℚ)|
  let integral1 : Int := if integral0 < 0 then ((1 <<< 9 : Nat) : Int) + integral0 else integral0
  let integralW : Nat := (pyAnd13 integral1 0x1FF) <<< 4
  let fracW : Nat := quarterBits frac <<< 2
  if 0 ≤ value then pyAnd13 ((integralW : Int) + (fracW : Int)) 0x1FFC
  else pyAnd13 ((integralW : Int) - (fracW : Int)) 0x1FFC

/-- `set_alert_boundary_temp` (lines 155-175): validate the register and the
range, then write `[register, twos_value >> 8, twos_value & 0xFF]`. -/
def set_alert_boundary_temp (breg : Nat) (value : ℚ) : OpResult :=
  if breg ∉ [REG_TEMP_BOUNDARY_LOWER, REG_TEMP_BOUNDARY_UPPER, REG_TEMP_BOUNDARY_CRITICAL] then
    ⟨[], some "Given alert boundary register is not valid!"⟩
  else if value < -128 ∨ 127 < value then
    ⟨[], some "Temperature out of range [-128, 127]"⟩
  else
    ⟨[.send [breg, (boundary_word value &&& 0xFF00) >>> 8, boundary_word value &&& 0xFF]],
      none⟩

/-- `set_resolution` (lines 178-187): validate the enum, then write
`[REG_RESOLUTION, r]`. -/
def set_resolution (r : Nat) : OpResult :=
  if r ∉ [TEMP_RESOLUTION_MIN, TEMP_RESOLUTION_LOW, TEMP_RESOLUTION_AVG, TEMP_RESOLUTION_MAX] then
    ⟨[], some "Invalid temperature resolution requested!"⟩
  else
    ⟨[.send [REG_RESOLUTION, r]], none⟩

/-- The value returned by `get_temp` (lines 189-201), with `raw0, raw1` the
two ambient-register bytes.  `raw[1] / 16` is Python float division, exact
here, hence `ℚ`. -/
def get_temp (raw0 raw1 : Nat) : ℚ :=
  let u : ℚ := (((raw0 &&& 0x0f) <<< 4 : Nat) : ℚ)
  let l : ℚ := (raw1 : ℚ) / 16
  if raw0 &&& 0x10 = 0x10 then (u + l) - 256 else u + l

/-- The transport events issued by `get_temp`. -/
def get_temp_events (raw0 raw1 : Nat) : List Ev :=
  [.send [REG_TEMP], .recv 2 [raw0, raw1]]

/-- The `(temp, frac)` pair returned by `get_temp_int` (lines 203-221). -/
def get_temp_int (raw0 raw1 : Nat) : Int × Int :=
  let u : Nat := (raw0 &&& 0xf) <<< 4
  let l : Nat := raw1 >>> 4
  if raw0 &&& 0x10 = 0x10 then
    (((u + l : Nat) : Int) - 256, -((((raw1 &&& 0x0f) * 100) >>> 4 : Nat) : Int))
  else
    (((u + l : Nat) : Int), ((((raw1 &&& 0x0f) * 100) >>> 4 : Nat) : Int))

/-- The transport events issued by `get_temp_int`. -/
def get_temp_int_events (raw0 raw1 : Nat) : List Ev :=
  [.send [REG_TEMP], .recv 2 [raw0, raw1]]

/-! ## Spec-side definitions

These are written from the specification's words, to be compared with the
definitions above, which are translated from the source. -/

/-- The ambient-temperature decode as the spec states it: magnitude
`u = (byte0 & 0x0F) << 4`, `l = byte1 / 16`; when the sign bit
(`byte0 & 0x10`) is clear the value is `u + l`, when set it is
`(u + l) - 256`. -/
def specTemp (b0 b1 : Nat) : ℚ :=
  let u : ℚ := (((b0 &&& 0x0F) <<< 4 : Nat) : ℚ)
  let l : ℚ := (b1 : ℚ) / 16
  if b0 &&& 0x10 = 0 then u + l else (u + l) - 256

/-- The spec's 13-bit two's-complement boundary decode: interpret the low
13 bits of the written word as a signed count of sixteenths of a degree
(sign bit at position 12). -/
def specDecode13 (w : Nat) : Int :=
  let w13 := w &&& 0x1FFF
  if w13 &&& 0x1000 = 0 then (w13 : Int) else (w13 : Int) - 8192

/-- A value rounded toward zero to a whole quarter degree. -/
def truncToQuarter (v : ℚ) : ℚ := ((pyInt (4 * v) : Int) : ℚ) / 4

/-- `true` for a `send` event (a transport write). -/
def isSend : Ev → Bool
  | .send _ => true
  | .recv _ _ => false

/-- The write/read shape of a trace: `true` marks a transport write. -/
def shape (t : List Ev) : List Bool := t.map isSend

/-! ## Arithmetic and bit-level helper lemmas -/

lemma and_mask_1FF {x : Nat} (h : x < 512) : x &&& 0x1FF = x := by
  have h9 : x < 2 ^ 9 := by norm_num; omega
  have := Nat.and_pow_two_sub_one_of_lt_two_pow h9
  norm_num at this
  exact this

lemma and_mask_1FFF (x : Nat) : x &&& 0x1FFF = x % 8192 := by
  have := Nat.and_pow_two_sub_one_eq_mod x 13
  norm_num at this
  exact this

lemma and_mask_3 (x : Nat) : x &&& 3 = x % 4 := by
  have := Nat.and_pow_two_sub_one_eq_mod x 2
  norm_num at this
  exact this

lemma and_mask_FF (x : Nat) : x &&& 0xFF = x % 256 := by
  have := Nat.and_pow_two_sub_one_eq_mod x 8
  norm_num at this
  exact this

lemma testBit_false_of_lt {x i : Nat} (h : x < 8192) (hi : 13 ≤ i) :
    x.testBit i = false := by
  apply Nat.testBit_lt_two_pow
  calc x < 8192 := h
    _ = 2 ^ 13 := by norm_num
    _ ≤ 2 ^ i := Nat.pow_le_pow_right (by norm_num) hi

lemma and_mask_1FFC {x : Nat} (h : x < 8192) (h4 : x % 4 = 0) : x &&& 0x1FFC = x := by
  apply Nat.eq_of_testBit_eq
  intro i
  rw [Nat.testBit_land]
  rcases lt_or_ge i 2 with hi | hi
  · have hx : x.testBit i = false := by
      have hmod := Nat.testBit_mod_two_pow x 2 i
      rw [show x % 2 ^ 2 = 0 by omega] at hmod
      simp [hi] at hmod
      simp [← hmod, hi]
    simp [hx]
  · rcases lt_or_ge i 13 with hi13 | hi13
    · have hm : Nat.testBit 0x1FFC i = true := by interval_cases i <;> decide
      simp [hm]
    · simp [testBit_false_of_lt h hi13]

lemma and_1000_eq_zero {x : Nat} (h : x < 4096) : x &&& 0x1000 = 0 := by
  have h2 : x &&& 2 ^ 12 = (x.testBit 12).toNat * 2 ^ 12 := Nat.and_two_pow x 12
  have hb : x.testBit 12 = false := Nat.testBit_lt_two_pow (by norm_num; omega)
  rw [hb] at h2
  norm_num at h2 ⊢
  exact h2

lemma and_1000_of_ge {x : Nat} (h1 : 4096 ≤ x) (h2 : x < 8192) : x &&& 0x1000 = 4096 := by
  have h3 : x &&& 2 ^ 12 = (x.testBit 12).toNat * 2 ^ 12 := Nat.and_two_pow x 12
  have hb : x.testBit 12 = true := by
    rw [Nat.testBit_to_div_mod]
    simp only [decide_eq_true_eq]
    omega
  rw [hb] at h3
  norm_num at h3 ⊢
  exact h3

/-- The big-endian byte split of a 13-bit word reassembles to the word. -/
lemma bytes_reassemble {x : Nat} (h : x < 8192) :
    (((x &&& 0xFF00) >>> 8) <<< 8) ||| (x &&& 0xFF) = x := by
  apply Nat.eq_of_testBit_eq
  intro i
  rw [Nat.testBit_lor, Nat.testBit_shiftLeft, Nat.testBit_land]
  rcases lt_or_ge i 8 with hi | hi
  · have hm : Nat.testBit 0xFF i = true := by interval_cases i <;> decide
    simp [hm, Nat.not_le.mpr hi]
  · rcases lt_or_ge i 13 with hi13 | hi13
    · have hge : i ≥ 8 := hi
      have hsub : 8 + (i - 8) = i := by omega
      rw [Nat.testBit_shiftRight, hsub, Nat.testBit_land]
      have hm1 : Nat.testBit 0xFF00 i = true := by interval_cases i <;> decide
      have hm2 : Nat.testBit 0xFF i = false := by interval_cases i <;> decide
      simp [hm1, hm2, hge]
    · have hx : x.testBit i = false := testBit_false_of_lt h hi13
      have hsub : 8 + (i - 8) = i := by omega
      rw [Nat.testBit_shiftRight, hsub, Nat.testBit_land]
      simp [hx]

lemma pyAnd13_of_nonneg {x : Int} (m : Nat) (h0 : 0 ≤ x) (h1 : x < 8192) :
    pyAnd13 x m = x.toNat &&& m := by
  unfold pyAnd13
  rw [Int.emod_eq_of_lt h0 (by omega)]

lemma boundary_word_lt (v : ℚ) : boundary_word v < 8192 := by
  unfold boundary_word
  split <;>
    exact lt_of_le_of_lt (Nat.and_le_right) (by norm_num)

/-! pyInt facts -/

lemma pyInt_of_nonneg {q : ℚ} (h : 0 ≤ q) : pyInt q = ⌊q⌋ := if_pos h

lemma pyInt_of_neg {q : ℚ} (h : q < 0) : pyInt q = ⌈q⌉ := if_neg (not_le.mpr h)

lemma pyInt_intCast (z : Int) : pyInt (z : ℚ) = z := by
  unfold pyInt
  split <;> simp

/-- The fractional remainder `abs(value - int(value))` lies in `[0, 1)`. -/
lemma pyInt_frac_lt_one (v : ℚ) : |v - (pyInt v : ℚ)| < 1 := by
  rcases le_or_lt 0 v with hv | hv
  · rw [pyInt_of_nonneg hv, abs_of_nonneg (by linarith [Int.floor_le v])]
    linarith [Int.lt_floor_add_one v]
  · rw [pyInt_of_neg hv, abs_of_nonpos (by linarith [Int.le_ceil v])]
    linarith [Int.ceil_lt_add_one v]

/-- The 2-bit fraction field computed on line 169 is the fractional
remainder rounded down to a whole quarter: `⌊4 f⌋` for `f ∈ [0, 1)`. -/
lemma quarterBits_eq_floor {f : ℚ} (h0 : 0 ≤ f) (h1 : f < 1) :
    quarterBits f = (⌊4 * f⌋).toNat := by
  unfold quarterBits
  rw [pyInt_of_nonneg (by linarith)]
  rcases le_or_lt 1 (f * 2) with hhalf | hhalf
  · have hfl : ⌊f * 2⌋ = 1 := by
      rw [Int.floor_eq_iff]
      constructor <;> [skip; skip] <;> push_cast <;> linarith
    rw [if_pos hhalf, hfl]
    rcases le_or_lt 1 ((f * 2 - ((1 : ℤ) : ℚ)) * 2) with h34 | h34
    · rw [if_pos h34]
      have : ⌊4 * f⌋ = 3 := by
        rw [Int.floor_eq_iff]
        constructor <;> push_cast <;> push_cast at h34 <;> linarith
      rw [this]
      rfl
    · rw [if_neg (not_le.mpr h34)]
      have : ⌊4 * f⌋ = 2 := by
        rw [Int.floor_eq_iff]
        constructor <;> push_cast <;> push_cast at h34 <;> linarith
      rw [this]
      rfl
  · have hfl : ⌊f * 2⌋ = 0 := by
      rw [Int.floor_eq_iff]
      constructor <;> push_cast <;> linarith
    rw [if_neg (not_le.mpr hhalf), hfl]
    rcases le_or_lt 1 ((f * 2 - ((0 : ℤ) : ℚ)) * 2) with h14 | h14
    · rw [if_pos h14]
      have : ⌊4 * f⌋ = 1 := by
        rw [Int.floor_eq_iff]
        constructor <;> push_cast <;> push_cast at h14 <;> linarith
      rw [this]
      rfl
    · rw [if_neg (not_le.mpr h14)]
      have : ⌊4 * f⌋ = 0 := by
        rw [Int.floor_eq_iff]
        constructor <;> push_cast <;> push_cast at h14 <;> linarith
      rw [this]
      rfl

lemma quarterBits_le_three (f : ℚ) : quarterBits f ≤ 3 := by
  unfold quarterBits
  split <;> split <;> simp

/-! ## The value of the encoded boundary word -/

lemma word_compute_pos (N n : Nat) (hN : N ≤ 127) (hn : n ≤ 3) :
    pyAnd13 (((N <<< 4 : Nat) : Int) + ((n <<< 2 : Nat) : Int)) 0x1FFC = 16 * N + 4 * n := by
  have hsh : (N <<< 4 : Nat) = N * 16 := by rw [Nat.shiftLeft_eq]
  have hsh2 : (n <<< 2 : Nat) = n * 4 := by rw [Nat.shiftLeft_eq]
  unfold pyAnd13
  rw [hsh, hsh2]
  have hb : ((((N * 16 : Nat) : Int) + ((n * 4 : Nat) : Int)) % 8192).toNat = N * 16 + n * 4 := by
    omega
  rw [hb]
  have h1 : N * 16 + n * 4 < 8192 := by omega
  have h2 : (N * 16 + n * 4) % 4 = 0 := by omega
  rw [and_mask_1FFC h1 h2]
  omega

lemma word_compute_neg (N n : Nat) (hNlo : 384 ≤ N) (hN : N ≤ 511) (hn : n ≤ 3) :
    pyAnd13 (((N <<< 4 : Nat) : Int) - ((n <<< 2 : Nat) : Int)) 0x1FFC = 16 * N - 4 * n := by
  have hsh : (N <<< 4 : Nat) = N * 16 := by rw [Nat.shiftLeft_eq]
  have hsh2 : (n <<< 2 : Nat) = n * 4 := by rw [Nat.shiftLeft_eq]
  unfold pyAnd13
  rw [hsh, hsh2]
  have hb : ((((N * 16 : Nat) : Int) - ((n * 4 : Nat) : Int)) % 8192).toNat = N * 16 - n * 4 := by
    omega
  rw [hb]
  have h1 : N * 16 - n * 4 < 8192 := by omega
  have h2 : (N * 16 - n * 4) % 4 = 0 := by omega
  rw [and_mask_1FFC h1 h2]
  omega

lemma word_compute_zero (n : Nat) (hn : n ≤ 3) :
    pyAnd13 (((0 : Nat) : Int) - ((n <<< 2 : Nat) : Int)) 0x1FFC =
      ((0 - 4 * (n : Int)) % 8192).toNat := by
  have hsh2 : (n <<< 2 : Nat) = n * 4 := by rw [Nat.shiftLeft_eq]
  unfold pyAnd13
  rw [hsh2]
  have hb : ((((0 : Nat) : Int) - ((n * 4 : Nat) : Int)) % 8192).toNat = (8192 - 4 * n) % 8192 := by
    omega
  rw [hb]
  have h1 : (8192 - 4 * n) % 8192 < 8192 := by omega
  have h2 : ((8192 - 4 * n) % 8192) % 4 = 0 := by omega
  rw [and_mask_1FFC h1 h2]
  omega

/-- For nonnegative in-range values the encoded word is
`16 * ⌊v⌋ + 4 * quarterBits (v - ⌊v⌋)`. -/
lemma boundary_word_pos (v : ℚ) (hv : 0 ≤ v) (hhi : v ≤ 127) :
    boundary_word v = 16 * (⌊v⌋).toNat + 4 * quarterBits (v - (⌊v⌋ : ℚ)) := by
  have hip : pyInt v = ⌊v⌋ := pyInt_of_nonneg hv
  have hi0 : (0 : ℤ) ≤ ⌊v⌋ := Int.floor_nonneg.mpr hv
  have hi127 : ⌊v⌋ ≤ 127 := by
    have h : v ≤ ((127 : ℤ) : ℚ) := by push_cast; linarith
    calc ⌊v⌋ ≤ ⌊((127 : ℤ) : ℚ)⌋ := Int.floor_mono h
      _ = 127 := Int.floor_intCast 127
  have habs : |v - ((⌊v⌋ : ℤ) : ℚ)| = v - (⌊v⌋ : ℚ) :=
    abs_of_nonneg (sub_nonneg.mpr (Int.floor_le v))
  have hn3 : quarterBits (v - (⌊v⌋ : ℚ)) ≤ 3 := quarterBits_le_three _
  have h1 : pyAnd13 ⌊v⌋ 0x1FF = (⌊v⌋).toNat := by
    unfold pyAnd13
    have hb : (⌊v⌋ % 8192).toNat = (⌊v⌋).toNat := by omega
    rw [hb]
    exact and_mask_1FF (by omega)
  simp only [boundary_word, hip, habs]
  rw [if_neg (show ¬(⌊v⌋ < 0) from by omega), if_pos hv, h1]
  rw [word_compute_pos (⌊v⌋).toNat _ (by omega) hn3]

/-- For negative in-range values the encoded word is the Euclidean
remainder of `16 * ⌈v⌉ - 4 * quarterBits (⌈v⌉ - v)` modulo `2^13`. -/
lemma boundary_word_neg (v : ℚ) (hv : v < 0) (hlo : -128 ≤ v) :
    boundary_word v =
      ((16 * ⌈v⌉ - 4 * (quarterBits ((⌈v⌉ : ℚ) - v) : Int)) % 8192).toNat := by
  have hip : pyInt v = ⌈v⌉ := pyInt_of_neg hv
  have hi0 : ⌈v⌉ ≤ 0 := by
    have h : v ≤ ((0 : ℤ) : ℚ) := by push_cast; linarith
    calc ⌈v⌉ ≤ ⌈((0 : ℤ) : ℚ)⌉ := Int.ceil_mono h
      _ = 0 := Int.ceil_intCast 0
  have hilo : -128 ≤ ⌈v⌉ := by
    have h : ((-128 : ℤ) : ℚ) ≤ v := by push_cast; linarith
    calc (-128 : ℤ) = ⌈((-128 : ℤ) : ℚ)⌉ := (Int.ceil_intCast (-128)).symm
      _ ≤ ⌈v⌉ := Int.ceil_mono h
  have habs : |v - ((⌈v⌉ : ℤ) : ℚ)| = (⌈v⌉ : ℚ) - v :=
    (abs_of_nonpos (sub_nonpos.mpr (Int.le_ceil v))).trans (by ring)
  have hn3 : quarterBits ((⌈v⌉ : ℚ) - v) ≤ 3 := quarterBits_le_three _
  simp only [boundary_word, hip, habs]
  rw [if_neg (not_le.mpr hv)]
  rcases lt_or_eq_of_le hi0 with hineg | hizero
  · rw [if_pos hineg]
    have h512 : ((1 <<< 9 : Nat) : Int) = 512 := by norm_num [Nat.shiftLeft_eq]
    rw [h512]
    have h1 : pyAnd13 (512 + ⌈v⌉) 0x1FF = (512 + ⌈v⌉).toNat := by
      unfold pyAnd13
      have hb : ((512 + ⌈v⌉) % 8192).toNat = (512 + ⌈v⌉).toNat := by omega
      rw [hb]
      exact and_mask_1FF (by omega)
    rw [h1]
    rw [word_compute_neg (512 + ⌈v⌉).toNat _ (by omega) (by omega) hn3]
    omega
  · rw [hizero] at hn3 ⊢
    rw [if_neg (show ¬((0 : ℤ) < 0) from by omega)]
    have h0 : pyAnd13 0 0x1FF = 0 := by
      unfold pyAnd13
      simp
    rw [h0, Nat.zero_shiftLeft]
    rw [word_compute_zero _ hn3]
    omega

/-! ## Decoding the written word -/

lemma specDecode13_low {w : Nat} (h : w < 4096) : specDecode13 w = (w : Int) := by
  simp only [specDecode13]
  rw [and_mask_1FFF, Nat.mod_eq_of_lt (by omega), if_pos (and_1000_eq_zero h)]

lemma specDecode13_high {w : Nat} (h1 : 4096 ≤ w) (h2 : w < 8192) :
    specDecode13 w = (w : Int) - 8192 := by
  simp only [specDecode13]
  rw [and_mask_1FFF, Nat.mod_eq_of_lt (by omega)]
  rw [if_neg (show ¬(w &&& 0x1000 = 0) from by rw [and_1000_of_ge h1 h2]; omega)]

lemma pyInt_four_pos (v : ℚ) (hv : 0 ≤ v) :
    pyInt (4 * v) = 4 * ⌊v⌋ + ⌊4 * (v - (⌊v⌋ : ℚ))⌋ := by
  rw [pyInt_of_nonneg (by positivity)]
  have h : 4 * v = 4 * (v - (⌊v⌋ : ℚ)) + ((4 * ⌊v⌋ : ℤ) : ℚ) := by push_cast; ring
  rw [h, Int.floor_add_int]
  ring

lemma pyInt_four_neg (v : ℚ) (hv : v < 0) :
    pyInt (4 * v) = 4 * ⌈v⌉ - ⌊4 * ((⌈v⌉ : ℚ) - v)⌋ := by
  rw [pyInt_of_neg (by linarith)]
  have h : 4 * v = -(4 * ((⌈v⌉ : ℚ) - v)) + ((4 * ⌈v⌉ : ℤ) : ℚ) := by push_cast; ring
  rw [h, Int.ceil_add_int, Int.ceil_neg]
  ring

/-- Central correspondence: for every in-range input, the 13-bit word
written by `set_alert_boundary_temp` has its two low bits clear, and read
back as a 13-bit two's-complement count of sixteenths it is exactly the
input rounded toward zero to a whole quarter degree. -/
lemma boundary_decode (v : ℚ) (hlo : -128 ≤ v) (hhi : v ≤ 127) :
    boundary_word v % 4 = 0 ∧ specDecode13 (boundary_word v) = 4 * pyInt (4 * v) := by
  rcases le_or_lt 0 v with hv | hv
  · have hf0 : 0 ≤ v - (⌊v⌋ : ℚ) := sub_nonneg.mpr (Int.floor_le v)
    have hf1 : v - (⌊v⌋ : ℚ) < 1 := by linarith [Int.lt_floor_add_one v]
    have hq := quarterBits_eq_floor hf0 hf1
    have hq3 := quarterBits_le_three (v - (⌊v⌋ : ℚ))
    have hfl0 : (0 : ℤ) ≤ ⌊4 * (v - (⌊v⌋ : ℚ))⌋ := Int.floor_nonneg.mpr (by positivity)
    have hi0 : (0 : ℤ) ≤ ⌊v⌋ := Int.floor_nonneg.mpr hv
    have hi127 : ⌊v⌋ ≤ 127 := by
      have h : v ≤ ((127 : ℤ) : ℚ) := by push_cast; linarith
      calc ⌊v⌋ ≤ ⌊((127 : ℤ) : ℚ)⌋ := Int.floor_mono h
        _ = 127 := Int.floor_intCast 127
    have hw := boundary_word_pos v hv hhi
    rw [hq] at hw hq3
    constructor
    · rw [hw]; omega
    · rw [hw, specDecode13_low (by omega), pyInt_four_pos v hv]
      push_cast
      omega
  · have hf0 : 0 ≤ (⌈v⌉ : ℚ) - v := sub_nonneg.mpr (Int.le_ceil v)
    have hf1 : (⌈v⌉ : ℚ) - v < 1 := by linarith [Int.ceil_lt_add_one v]
    have hq := quarterBits_eq_floor hf0 hf1
    have hq3 := quarterBits_le_three ((⌈v⌉ : ℚ) - v)
    have hfl0 : (0 : ℤ) ≤ ⌊4 * ((⌈v⌉ : ℚ) - v)⌋ := Int.floor_nonneg.mpr (by positivity)
    have hi0 : ⌈v⌉ ≤ 0 := by
      have h : v ≤ ((0 : ℤ) : ℚ) := by push_cast; linarith
      calc ⌈v⌉ ≤ ⌈((0 : ℤ) : ℚ)⌉ := Int.ceil_mono h
        _ = 0 := Int.ceil_intCast 0
    have hilo : -128 ≤ ⌈v⌉ := by
      have h : ((-128 : ℤ) : ℚ) ≤ v := by push_cast; linarith
      calc (-128 : ℤ) = ⌈((-128 : ℤ) : ℚ)⌉ := (Int.ceil_intCast (-128)).symm
        _ ≤ ⌈v⌉ := Int.ceil_mono h
    have hw := boundary_word_neg v hv hlo
    rw [hq] at hw hq3
    set m := ⌊4 * ((⌈v⌉ : ℚ) - v)⌋ with hm
    have hmn : ((m.toNat : ℤ)) = m := Int.toNat_of_nonneg hfl0
    rw [hmn] at hw
    rw [hw, pyInt_four_neg v hv]
    by_cases hz : ⌈v⌉ = 0 ∧ m = 0
    · have hW0 : ((16 * ⌈v⌉ - 4 * m) % 8192).toNat = 0 := by
        rcases hz with ⟨h1, h2⟩
        rw [h1, h2]
        omega
      rw [hW0, specDecode13_low (by omega)]
      omega
    · have hW1 : 4096 ≤ ((16 * ⌈v⌉ - 4 * m) % 8192).toNat := by omega
      have hW2 : ((16 * ⌈v⌉ - 4 * m) % 8192).toNat < 8192 := by omega
      rw [specDecode13_high hW1 hW2]
      omega

/-! ## Claim theorems -/

/-- C1: for every 2-byte ambient register value, `get_temp` returns
`u + l` with `u = (byte0 & 0x0F) << 4` and `l = byte1 / 16` when the sign
bit `byte0 & 0x10` is clear, and `(u + l) - 256` when it is set; on raw
bytes `[0x01, 0x90]` it returns `25.0` and `get_temp_int` returns
`(25, 0)`. -/
theorem C1_temp_decode :
    (∀ b0 b1 : Nat, get_temp b0 b1 = specTemp b0 b1) ∧
    get_temp 0x01 0x90 = 25 ∧ get_temp_int 0x01 0x90 = (25, 0) := by
  refine ⟨fun b0 b1 => ?_, ?_, ?_⟩
  · simp only [get_temp, specTemp]
    have h16 : b0 &&& 0x10 = (b0.testBit 4).toNat * 16 := by
      have h := Nat.and_two_pow b0 4
      norm_num at h
      exact h
    cases hb : b0.testBit 4 with
    | false =>
      rw [hb] at h16
      norm_num at h16
      rw [if_neg (show ¬(b0 &&& 0x10 = 0x10) from by omega),
        if_pos (show b0 &&& 0x10 = 0 from by omega)]
    | true =>
      rw [hb] at h16
      norm_num at h16
      rw [if_pos (show b0 &&& 0x10 = 0x10 from by omega),
        if_neg (show ¬(b0 &&& 0x10 = 0) from by omega)]
  · simp only [get_temp]
    rw [if_neg (show ¬((1 : Nat) &&& 0x10 = 0x10) from by decide)]
    rw [show ((1 : Nat) &&& 0x0f) <<< 4 = 16 from by decide]
    norm_num
  · decide

/-- C4 fails on the code: on raw bytes `[0x10, 0x98]` the float decode
gives `-246.5` but the integer decode gives `(-247, -50)`, which stands
for `-247.5`: one full degree away, far outside the claimed `0.01`
agreement.  (The integer path subtracts the fractional hundredths after
already rounding the magnitude down through the two's-complement offset.) -/
theorem C4_int_float_mismatch :
    get_temp 0x10 0x98 = -493 / 2 ∧
    get_temp_int 0x10 0x98 = (-247, -50) ∧
    ¬ |((-247 : ℚ) + (-50 : ℚ) / 100) - get_temp 0x10 0x98| ≤ 1 / 100 := by
  have hval : get_temp 0x10 0x98 = -493 / 2 := by
    simp only [get_temp]
    rw [if_pos (show (0x10 : Nat) &&& 0x10 = 0x10 from by decide)]
    rw [show ((0x10 : Nat) &&& 0x0f) <<< 4 = 0 from by decide]
    norm_num
  refine ⟨hval, by decide, ?_⟩
  rw [hval]
  norm_num

/-- C9: construction succeeds exactly when the manufacturer-ID read
returns the bytes `[0x00, 0x54]` and the device-ID read returns
`[0x04, 0x00]`; any other answer raises.  On success both identity
registers have been read. -/
theorem C9_identity_check :
    (∀ mid did : List Nat, (check_device mid did).err = none ↔
      (mid = [0x00, 0x54] ∧ did = [0x04, 0x00])) ∧
    (check_device [0x00, 0x54] [0x04, 0x00]).events =
      [Ev.send [REG_MANUFACTURER_ID], Ev.recv 2 [0x00, 0x54],
       Ev.send [REG_DEVIDE_ID], Ev.recv 2 [0x04, 0x00]] := by
  constructor
  · intro mid did
    unfold check_device
    by_cases h1 : mid = [0x00, 0x54]
    · by_cases h2 : did = [0x04, 0x00]
      · rw [if_neg (by simp [h1]), if_neg (by simp [h2])]
        simp [h1, h2]
      · rw [if_neg (by simp [h1]), if_pos (by simp [h2])]
        simp [h1, h2]
    · rw [if_pos (by simp [h1])]
      simp [h1]
  · rfl

/-- The claim C3 is refuted by the code: `set_shutdown_mode` performs a
read-modify-write cycle and therefore issues two transport writes, not
exactly one. -/
theorem C3_single_write_cex :
    ¬ ((shape (set_shutdown_mode true 0 0)).count true = 1) := by decide

/-- C3 amended: every operation issues at most two writes and at most one
read.  The read-modify-write config operations issue write, read, write;
the temperature reads issue write then read; boundary and resolution
writes issue exactly one write and no read. -/
theorem C3_trace_shapes :
    (∀ (b : Bool) (cfg0 cfg1 : Nat),
      shape (set_shutdown_mode b cfg0 cfg1) = [true, false, true]) ∧
    (∀ cfg0 cfg1 : Nat, shape (acknowledge_alert_irq cfg0 cfg1) = [true, false, true]) ∧
    (∀ (ea : Bool) (om pol sel cfg0 cfg1 : Nat), om ≤ 1 → pol ≤ 1 → sel ≤ 1 →
      shape (set_alert_mode ea om pol sel cfg0 cfg1).events = [true, false, true]) ∧
    (∀ (breg : Nat) (v : ℚ),
      (breg = REG_TEMP_BOUNDARY_UPPER ∨ breg = REG_TEMP_BOUNDARY_LOWER ∨
        breg = REG_TEMP_BOUNDARY_CRITICAL) → -128 ≤ v → v ≤ 127 →
      shape (set_alert_boundary_temp breg v).events = [true]) ∧
    (∀ r : Nat, r ≤ 3 → shape (set_resolution r).events = [true]) ∧
    (∀ b0 b1 : Nat, shape (get_temp_events b0 b1) = [true, false]) ∧
    (∀ b0 b1 : Nat, shape (get_temp_int_events b0 b1) = [true, false]) := by
  refine ⟨fun _ _ _ => rfl, fun _ _ => rfl, ?_, ?_, ?_, fun _ _ => rfl,
    fun _ _ => rfl⟩
  · intro ea om pol sel cfg0 cfg1 h1 h2 h3
    interval_cases om <;> interval_cases pol <;> interval_cases sel <;>
      simp [set_alert_mode, shape, isSend, ALERT_OUTPUT_COMPARATOR,
        ALERT_OUTPUT_INTERRUPT, ALERT_SELECT_ALL, ALERT_SELECT_CRIT,
        ALERT_POLARITY_ALOW, ALERT_POLARITY_AHIGH]
  · intro breg v hb h1 h2
    have hr : ¬(v < -128 ∨ 127 < v) := by
      push_neg
      constructor <;> linarith
    rcases hb with hb | hb | hb <;> subst hb <;>
      simp [set_alert_boundary_temp, REG_TEMP_BOUNDARY_UPPER,
        REG_TEMP_BOUNDARY_LOWER, REG_TEMP_BOUNDARY_CRITICAL, hr, shape, isSend]
  · intro r hr
    interval_cases r <;>
      simp [set_resolution, shape, isSend, TEMP_RESOLUTION_MIN,
        TEMP_RESOLUTION_LOW, TEMP_RESOLUTION_AVG, TEMP_RESOLUTION_MAX]

/-- Witness for the amended C3, at concrete inputs. -/
theorem C3_trace_shapes_witness :
    shape (set_alert_mode true 1 0 1 0xAB 0x5A).events = [true, false, true] ∧
    shape (set_alert_boundary_temp 2 (41 / 2)).events = [true] ∧
    shape (set_resolution 1).events = [true] :=
  ⟨C3_trace_shapes.2.2.1 true 1 0 1 0xAB 0x5A (by norm_num) (by norm_num) (by norm_num),
   C3_trace_shapes.2.2.2.1 2 (41 / 2) (Or.inl rfl) (by norm_num) (by norm_num),
   C3_trace_shapes.2.2.2.2.1 1 (by norm_num)⟩

/-- C7: invalid arguments are rejected before any transport access:
the failing operation raises and its event list is empty.  In particular
`set_alert_boundary_temp` rejects `-129` and `128`, and `set_resolution`
rejects `4`, each with no write. -/
theorem C7_validation_no_io :
    (∀ (breg : Nat) (v : ℚ), breg ≠ REG_TEMP_BOUNDARY_UPPER →
        breg ≠ REG_TEMP_BOUNDARY_LOWER → breg ≠ REG_TEMP_BOUNDARY_CRITICAL →
      (set_alert_boundary_temp breg v).err.isSome ∧
        (set_alert_boundary_temp breg v).events = []) ∧
    (∀ (breg : Nat) (v : ℚ), (v < -128 ∨ 127 < v) →
      (set_alert_boundary_temp breg v).err.isSome ∧
        (set_alert_boundary_temp breg v).events = []) ∧
    ((set_alert_boundary_temp REG_TEMP_BOUNDARY_UPPER (-129)).err.isSome ∧
      (set_alert_boundary_temp REG_TEMP_BOUNDARY_UPPER (-129)).events = []) ∧
    ((set_alert_boundary_temp REG_TEMP_BOUNDARY_UPPER 128).err.isSome ∧
      (set_alert_boundary_temp REG_TEMP_BOUNDARY_UPPER 128).events = []) ∧
    (∀ r : Nat, 3 < r → (set_resolution r).err.isSome ∧ (set_resolution r).events = []) ∧
    ((set_resolution 4).err.isSome ∧ (set_resolution 4).events = []) ∧
    (∀ (ea : Bool) (om pol sel cfg0 cfg1 : Nat), (1 < om ∨ 1 < pol ∨ 1 < sel) →
      (set_alert_mode ea om pol sel cfg0 cfg1).err.isSome ∧
        (set_alert_mode ea om pol sel cfg0 cfg1).events = []) := by
  have hreg : ∀ (breg : Nat) (v : ℚ), breg ≠ REG_TEMP_BOUNDARY_UPPER →
      breg ≠ REG_TEMP_BOUNDARY_LOWER → breg ≠ REG_TEMP_BOUNDARY_CRITICAL →
      (set_alert_boundary_temp breg v).err.isSome ∧
        (set_alert_boundary_temp breg v).events = [] := by
    intro breg v h2 h3 h4
    simp only [REG_TEMP_BOUNDARY_UPPER, REG_TEMP_BOUNDARY_LOWER,
      REG_TEMP_BOUNDARY_CRITICAL] at h2 h3 h4
    have hmem : breg ∉ [REG_TEMP_BOUNDARY_LOWER, REG_TEMP_BOUNDARY_UPPER,
        REG_TEMP_BOUNDARY_CRITICAL] := by
      simp [REG_TEMP_BOUNDARY_LOWER, REG_TEMP_BOUNDARY_UPPER,
        REG_TEMP_BOUNDARY_CRITICAL]
      omega
    unfold set_alert_boundary_temp
    rw [if_pos hmem]
    exact ⟨rfl, rfl⟩
  have hrange : ∀ (breg : Nat) (v : ℚ), (v < -128 ∨ 127 < v) →
      (set_alert_boundary_temp breg v).err.isSome ∧
        (set_alert_boundary_temp breg v).events = [] := by
    intro breg v hv
    unfold set_alert_boundary_temp
    by_cases hmem : breg ∉ [REG_TEMP_BOUNDARY_LOWER, REG_TEMP_BOUNDARY_UPPER,
        REG_TEMP_BOUNDARY_CRITICAL]
    · rw [if_pos hmem]
      exact ⟨rfl, rfl⟩
    · rw [if_neg hmem, if_pos hv]
      exact ⟨rfl, rfl⟩
  have hres : ∀ r : Nat, 3 < r →
      (set_resolution r).err.isSome ∧ (set_resolution r).events = [] := by
    intro r hr
    have hmem : r ∉ [TEMP_RESOLUTION_MIN, TEMP_RESOLUTION_LOW,
        TEMP_RESOLUTION_AVG, TEMP_RESOLUTION_MAX] := by
      simp [TEMP_RESOLUTION_MIN, TEMP_RESOLUTION_LOW, TEMP_RESOLUTION_AVG,
        TEMP_RESOLUTION_MAX]
      omega
    unfold set_resolution
    rw [if_pos hmem]
    exact ⟨rfl, rfl⟩
  refine ⟨hreg, hrange, hrange _ _ (Or.inl (by norm_num)),
    hrange _ _ (Or.inr (by norm_num)), hres, hres 4 (by norm_num), ?_⟩
  intro ea om pol sel cfg0 cfg1 hdis
  unfold set_alert_mode
  by_cases hA : om ∉ [ALERT_OUTPUT_COMPARATOR, ALERT_OUTPUT_INTERRUPT]
  · rw [if_pos hA]
    exact ⟨rfl, rfl⟩
  · rw [if_neg hA]
    by_cases hB : sel ∉ [ALERT_SELECT_ALL, ALERT_SELECT_CRIT]
    · rw [if_pos hB]
      exact ⟨rfl, rfl⟩
    · rw [if_neg hB]
      have hC : pol ∉ [ALERT_POLARITY_ALOW, ALERT_POLARITY_AHIGH] := by
        simp [ALERT_OUTPUT_COMPARATOR, ALERT_OUTPUT_INTERRUPT, ALERT_SELECT_ALL,
          ALERT_SELECT_CRIT, ALERT_POLARITY_ALOW, ALERT_POLARITY_AHIGH] at hA hB ⊢
        omega
      rw [if_pos hC]
      exact ⟨rfl, rfl⟩

/-- Witness for C7, at concrete invalid inputs. -/
theorem C7_validation_no_io_witness :
    ((set_alert_boundary_temp 9 0).err.isSome ∧ (set_alert_boundary_temp 9 0).events = []) ∧
    ((set_alert_boundary_temp 2 200).err.isSome ∧ (set_alert_boundary_temp 2 200).events = []) ∧
    ((set_resolution 7).err.isSome ∧ (set_resolution 7).events = []) ∧
    ((set_alert_mode true 5 0 0 1 2).err.isSome ∧ (set_alert_mode true 5 0 0 1 2).events = []) :=
  ⟨C7_validation_no_io.1 9 0 (by norm_num [REG_TEMP_BOUNDARY_UPPER])
      (by norm_num [REG_TEMP_BOUNDARY_LOWER]) (by norm_num [REG_TEMP_BOUNDARY_CRITICAL]),
   C7_validation_no_io.2.1 2 200 (Or.inr (by norm_num)),
   C7_validation_no_io.2.2.2.2.1 7 (by norm_num),
   C7_validation_no_io.2.2.2.2.2.2 true 5 0 0 1 2 (Or.inl (by norm_num))⟩

lemma testBit_ge_of_lt {x k i : Nat} (hx : x < 2 ^ k) (hk : k ≤ i) :
    x.testBit i = false :=
  Nat.testBit_lt_two_pow
    (lt_of_lt_of_le hx (Nat.pow_le_pow_right (by norm_num) hk))

lemma and_one_eq_testBit (x : Nat) : x &&& 1 = (x.testBit 0).toNat := by
  have h := Nat.and_two_pow x 0
  rw [pow_zero, mul_one] at h
  exact h

/-- Bits 0-3 of `(c & 0xF0) | b` come from `b` alone when `b < 16`. -/
lemma lsb_low_bit (c b k : Nat) (_hb : b < 16) (hk : k < 4) :
    (((c &&& 0xF0) ||| b) >>> k) &&& 1 = (b >>> k) &&& 1 := by
  rw [and_one_eq_testBit, and_one_eq_testBit, Nat.testBit_shiftRight,
    Nat.testBit_shiftRight]
  simp only [Nat.add_zero]
  rw [Nat.testBit_lor, Nat.testBit_land]
  have hm : Nat.testBit 0xF0 k = false := by interval_cases k <;> decide
  simp [hm]

/-- The high nibble of `(c & 0xF0) | b` is the high nibble of `c` when
`b < 16` and `c < 256`. -/
lemma lsb_high_nibble (c b : Nat) (hb : b < 16) (hc : c < 256) :
    ((c &&& 0xF0) ||| b) >>> 4 = c >>> 4 := by
  apply Nat.eq_of_testBit_eq
  intro j
  rw [Nat.testBit_shiftRight, Nat.testBit_shiftRight, Nat.testBit_lor,
    Nat.testBit_land]
  have hbb : b.testBit (4 + j) = false :=
    testBit_ge_of_lt (show b < 2 ^ 4 from by omega) (by omega)
  rcases lt_or_ge j 4 with hj | hj
  · have hm : Nat.testBit 0xF0 (4 + j) = true := by interval_cases j <;> decide
    simp [hm, hbb]
  · have hm : c.testBit (4 + j) = false :=
      testBit_ge_of_lt (show c < 2 ^ 8 from by omega) (by omega)
    have hm2 : Nat.testBit 0xF0 (4 + j) = false := by
      exact testBit_ge_of_lt (show (0xF0 : Nat) < 2 ^ 8 from by norm_num) (by omega)
    simp [hm, hm2, hbb]

/-- The packed nibble decodes back to its four fields. -/
lemma alert_bits_decode (om pol sel e : Nat) (hom : om ≤ 1) (hpol : pol ≤ 1)
    (hsel : sel ≤ 1) (he : e ≤ 1) :
    alert_bits om pol sel e < 16 ∧
    (alert_bits om pol sel e) &&& 1 = om ∧
    ((alert_bits om pol sel e) >>> 1) &&& 1 = pol ∧
    ((alert_bits om pol sel e) >>> 2) &&& 1 = sel ∧
    ((alert_bits om pol sel e) >>> 3) &&& 1 = e := by
  interval_cases om <;> interval_cases pol <;> interval_cases sel <;>
    interval_cases e <;> decide

/-- C5: for all valid alert-mode tuples and any prior config snapshot,
the written low byte carries the packed nibble in its low nibble (so each
field is recovered by decoding it), while its high nibble and the whole
high byte are unchanged from the snapshot. -/
theorem C5_alert_mode_roundtrip (en : Bool) (om pol sel cfg0 cfg1 : Nat)
    (hom : om ≤ 1) (hpol : pol ≤ 1) (hsel : sel ≤ 1) (hcfg1 : cfg1 < 256) :
    (set_alert_mode en om pol sel cfg0 cfg1).err = none ∧
    (set_alert_mode en om pol sel cfg0 cfg1).events =
      [Ev.send [REG_CONFIG], Ev.recv 2 [cfg0, cfg1],
       Ev.send [REG_CONFIG, cfg0,
         (cfg1 &&& 0xF0) ||| alert_bits om pol sel (if en then 1 else 0)]] ∧
    ((cfg1 &&& 0xF0) ||| alert_bits om pol sel (if en then 1 else 0)) &&& 1 = om ∧
    (((cfg1 &&& 0xF0) ||| alert_bits om pol sel (if en then 1 else 0)) >>> 1) &&& 1 = pol ∧
    (((cfg1 &&& 0xF0) ||| alert_bits om pol sel (if en then 1 else 0)) >>> 2) &&& 1 = sel ∧
    (((cfg1 &&& 0xF0) ||| alert_bits om pol sel (if en then 1 else 0)) >>> 3) &&& 1 =
      (if en then 1 else 0) ∧
    ((cfg1 &&& 0xF0) ||| alert_bits om pol sel (if en then 1 else 0)) >>> 4 =
      cfg1 >>> 4 := by
  have he : (if en then 1 else 0) ≤ 1 := by split <;> norm_num
  obtain ⟨hb, hd0, hd1, hd2, hd3⟩ :=
    alert_bits_decode om pol sel (if en then 1 else 0) hom hpol hsel he
  have hmemO : ¬(om ∉ [ALERT_OUTPUT_COMPARATOR, ALERT_OUTPUT_INTERRUPT]) := by
    simp [ALERT_OUTPUT_COMPARATOR, ALERT_OUTPUT_INTERRUPT]
    omega
  have hmemS : ¬(sel ∉ [ALERT_SELECT_ALL, ALERT_SELECT_CRIT]) := by
    simp [ALERT_SELECT_ALL, ALERT_SELECT_CRIT]
    omega
  have hmemP : ¬(pol ∉ [ALERT_POLARITY_ALOW, ALERT_POLARITY_AHIGH]) := by
    simp [ALERT_POLARITY_ALOW, ALERT_POLARITY_AHIGH]
    omega
  have hstruct : (set_alert_mode en om pol sel cfg0 cfg1).err = none ∧
      (set_alert_mode en om pol sel cfg0 cfg1).events =
        [Ev.send [REG_CONFIG], Ev.recv 2 [cfg0, cfg1],
         Ev.send [REG_CONFIG, cfg0,
           (cfg1 &&& 0xF0) ||| alert_bits om pol sel (if en then 1 else 0)]] := by
    unfold set_alert_mode
    rw [if_neg hmemO, if_neg hmemS, if_neg hmemP]
    exact ⟨rfl, rfl⟩
  have h0 := lsb_low_bit cfg1 (alert_bits om pol sel (if en then 1 else 0)) 0 hb
    (by norm_num)
  have h1 := lsb_low_bit cfg1 (alert_bits om pol sel (if en then 1 else 0)) 1 hb
    (by norm_num)
  have h2 := lsb_low_bit cfg1 (alert_bits om pol sel (if en then 1 else 0)) 2 hb
    (by norm_num)
  have h3 := lsb_low_bit cfg1 (alert_bits om pol sel (if en then 1 else 0)) 3 hb
    (by norm_num)
  rw [Nat.shiftRight_zero, Nat.shiftRight_zero] at h0
  exact ⟨hstruct.1, hstruct.2, h0.trans hd0, h1.trans hd1, h2.trans hd2,
    h3.trans hd3,
    lsb_high_nibble cfg1 (alert_bits om pol sel (if en then 1 else 0)) hb hcfg1⟩

/-- Witness for C5 at a concrete tuple and snapshot. -/
theorem C5_alert_mode_roundtrip_witness :
    (set_alert_mode true 1 0 1 0xAB 0x5A).err = none ∧
    ((0x5A &&& 0xF0) ||| alert_bits 1 0 1 (if true then 1 else 0)) >>> 4 =
      (0x5A : Nat) >>> 4 :=
  ⟨(C5_alert_mode_roundtrip true 1 0 1 0xAB 0x5A (by norm_num) (by norm_num)
      (by norm_num) (by norm_num)).1,
   (C5_alert_mode_roundtrip true 1 0 1 0xAB 0x5A (by norm_num) (by norm_num)
      (by norm_num) (by norm_num)).2.2.2.2.2.2⟩

/-- C8: `set_shutdown_mode` touches at most bit 0 of the high config byte
(setting it for `true`, clearing it for `false`) and writes the low byte
back verbatim; `acknowledge_alert_irq` sets only bit 5 of the low byte and
writes the high byte back verbatim.  Neither clears any other bit, so
alert-status and lock bits survive. -/
theorem C8_config_frame (shdn : Bool) (cfg0 cfg1 : Nat) (h0 : cfg0 < 256) :
    set_shutdown_mode shdn cfg0 cfg1 =
      [Ev.send [REG_CONFIG], Ev.recv 2 [cfg0, cfg1],
       Ev.send [REG_CONFIG, shutdown_msb shdn cfg0, cfg1]] ∧
    (shutdown_msb shdn cfg0).testBit 0 = shdn ∧
    (∀ i, i ≠ 0 → (shutdown_msb shdn cfg0).testBit i = cfg0.testBit i) ∧
    acknowledge_alert_irq cfg0 cfg1 =
      [Ev.send [REG_CONFIG], Ev.recv 2 [cfg0, cfg1],
       Ev.send [REG_CONFIG, cfg0, ack_lsb cfg1]] ∧
    (ack_lsb cfg1).testBit 5 = true ∧
    (∀ i, i ≠ 5 → (ack_lsb cfg1).testBit i = cfg1.testBit i) := by
  refine ⟨rfl, ?_, ?_, rfl, ?_, ?_⟩
  · cases shdn
    · show (cfg0 &&& 0xFE).testBit 0 = false
      rw [Nat.testBit_land, show Nat.testBit 0xFE 0 = false from by decide]
      simp
    · show (cfg0 ||| 1).testBit 0 = true
      rw [Nat.testBit_lor, show Nat.testBit 1 0 = true from by decide]
      simp
  · intro i hi
    cases shdn
    · show (cfg0 &&& 0xFE).testBit i = cfg0.testBit i
      rcases lt_or_ge i 8 with h8 | h8
      · have hm : Nat.testBit 0xFE i = true := by
          have h1 : 1 ≤ i := by omega
          interval_cases i <;> decide
        rw [Nat.testBit_land, hm]
        simp
      · have hc : cfg0.testBit i = false :=
          testBit_ge_of_lt (show cfg0 < 2 ^ 8 from by omega) h8
        rw [Nat.testBit_land, hc]
        simp
    · show (cfg0 ||| 1).testBit i = cfg0.testBit i
      have hm : Nat.testBit 1 i = false := by
        rw [show (1 : Nat) = 2 ^ 0 from by norm_num, Nat.testBit_two_pow]
        simp
        omega
      rw [Nat.testBit_lor, hm]
      simp
  · show (cfg1 ||| 0x20).testBit 5 = true
    rw [Nat.testBit_lor, show Nat.testBit 0x20 5 = true from by decide]
    simp
  · intro i hi
    show (cfg1 ||| 0x20).testBit i = cfg1.testBit i
    have hm : Nat.testBit 0x20 i = false := by
      rw [show (0x20 : Nat) = 2 ^ 5 from by norm_num, Nat.testBit_two_pow]
      simp
      omega
    rw [Nat.testBit_lor, hm]
    simp

/-- Witness for C8 at a concrete snapshot. -/
theorem C8_config_frame_witness :
    (shutdown_msb true 0x35).testBit 0 = true ∧
    (ack_lsb 0x77).testBit 3 = Nat.testBit 0x77 3 :=
  ⟨(C8_config_frame true 0x35 0x77 (by norm_num)).2.1,
   (C8_config_frame true 0x35 0x77 (by norm_num)).2.2.2.2.2 3 (by norm_num)⟩

/-- The claim C2 is refuted by the code: on the in-range input `1/5`
(fractional remainder `0.2`) the encoded word carries fraction field `0`,
yet the quarter-degree multiple nearest to `0.2` is `1/4`, which is
strictly closer than `0`.  The code truncates rather than rounds to
nearest. -/
theorem C2_nearest_quarter_cex :
    (boundary_word (1 / 5) >>> 2) &&& 3 = 0 ∧
    |(1 : ℚ) / 5 - 1 / 4| < |(1 : ℚ) / 5 - 0 / 4| := by
  have hfl : ⌊(1 : ℚ) / 5⌋ = 0 := by norm_num
  have hw := boundary_word_pos (1 / 5) (by norm_num) (by norm_num)
  rw [hfl] at hw
  have hq : quarterBits ((1 : ℚ) / 5 - ((0 : ℤ) : ℚ)) = 0 := by
    rw [quarterBits_eq_floor (by norm_num) (by norm_num)]
    norm_num
  rw [hq] at hw
  have hw0 : boundary_word (1 / 5) = 0 := by rw [hw]; norm_num
  constructor
  · rw [hw0]
    decide
  · have ha : |(1 : ℚ) / 5 - 1 / 4| = 1 / 20 := by
      rw [abs_of_nonpos (by norm_num)]
      norm_num
    have hb : |(1 : ℚ) / 5 - 0 / 4| = 1 / 5 := by
      rw [abs_of_nonneg (by norm_num)]
      norm_num
    rw [ha, hb]
    norm_num

/-- C2 amended: for every in-range input, `set_boundary` accepts the value
(finer precision is never rejected) and the 2-bit fraction field equals
the fractional remainder rounded DOWN to a whole quarter degree,
`⌊4 * frac⌋` — truncation, not nearest-rounding.  For nonnegative inputs
this field sits verbatim in bits 2-3 of the encoded word. -/
theorem C2_fraction_truncates (v : ℚ) (h1 : -128 ≤ v) (h2 : v ≤ 127) :
    (set_alert_boundary_temp REG_TEMP_BOUNDARY_UPPER v).err = none ∧
    quarterBits |v - (pyInt v : ℚ)| = (⌊4 * |v - (pyInt v : ℚ)|⌋).toNat ∧
    (0 ≤ v → (boundary_word v >>> 2) &&& 3 = quarterBits |v - (pyInt v : ℚ)|) := by
  have hr : ¬(v < -128 ∨ 127 < v) := by
    push_neg
    exact ⟨h1, h2⟩
  have hmem : ¬(REG_TEMP_BOUNDARY_UPPER ∉ [REG_TEMP_BOUNDARY_LOWER,
      REG_TEMP_BOUNDARY_UPPER, REG_TEMP_BOUNDARY_CRITICAL]) := by simp
  refine ⟨?_, ?_, ?_⟩
  · unfold set_alert_boundary_temp
    rw [if_neg hmem, if_neg hr]
  · exact quarterBits_eq_floor (abs_nonneg _) (pyInt_frac_lt_one v)
  · intro hv
    have hip : pyInt v = ⌊v⌋ := pyInt_of_nonneg hv
    have habs : |v - ((⌊v⌋ : ℤ) : ℚ)| = v - (⌊v⌋ : ℚ) :=
      abs_of_nonneg (sub_nonneg.mpr (Int.floor_le v))
    have hn3 := quarterBits_le_three (v - (⌊v⌋ : ℚ))
    rw [hip, habs, boundary_word_pos v hv h2, Nat.shiftRight_eq_div_pow,
      and_mask_3]
    omega

/-- Witness for the amended C2, at the concrete fractional input `41/2`. -/
theorem C2_fraction_truncates_witness :
    quarterBits |(41 : ℚ) / 2 - (pyInt ((41 : ℚ) / 2) : ℚ)| =
      (⌊4 * |(41 : ℚ) / 2 - (pyInt ((41 : ℚ) / 2) : ℚ)|⌋).toNat :=
  (C2_fraction_truncates (41 / 2) (by norm_num) (by norm_num)).2.1

/-- C6: for every integer in `[-128, 127]` and each boundary register,
`set_alert_boundary_temp` succeeds and writes two data bytes which, read
back per the spec's 13-bit two's-complement sixteenths format, decode to
exactly the input (so the integer part is recovered exactly and the
fractional error is `0 ≤ 0.25`). -/
theorem C6_integer_boundary_roundtrip (t : ℤ) (h1 : -128 ≤ t) (h2 : t ≤ 127)
    (breg : Nat)
    (hb : breg = REG_TEMP_BOUNDARY_UPPER ∨ breg = REG_TEMP_BOUNDARY_LOWER ∨
      breg = REG_TEMP_BOUNDARY_CRITICAL) :
    (set_alert_boundary_temp breg (t : ℚ)).err = none ∧
    ∃ hi lo : Nat,
      (set_alert_boundary_temp breg (t : ℚ)).events = [Ev.send [breg, hi, lo]] ∧
      specDecode13 ((hi <<< 8) ||| lo) = 16 * t := by
  have hlo : -128 ≤ (t : ℚ) := by exact_mod_cast h1
  have hhi : (t : ℚ) ≤ 127 := by exact_mod_cast h2
  have hr : ¬((t : ℚ) < -128 ∨ 127 < (t : ℚ)) := by
    push_neg
    exact ⟨hlo, hhi⟩
  have hmem : ¬(breg ∉ [REG_TEMP_BOUNDARY_LOWER, REG_TEMP_BOUNDARY_UPPER,
      REG_TEMP_BOUNDARY_CRITICAL]) := by
    rcases hb with hb | hb | hb <;> subst hb <;> simp
  constructor
  · unfold set_alert_boundary_temp
    rw [if_neg hmem, if_neg hr]
  · refine ⟨(boundary_word (t : ℚ) &&& 0xFF00) >>> 8, boundary_word (t : ℚ) &&& 0xFF,
      ?_, ?_⟩
    · unfold set_alert_boundary_temp
      rw [if_neg hmem, if_neg hr]
    · rw [bytes_reassemble (boundary_word_lt _)]
      obtain ⟨-, hdec⟩ := boundary_decode (t : ℚ) hlo hhi
      rw [hdec]
      have hp : pyInt (4 * (t : ℚ)) = 4 * t := by
        have hcast : (4 : ℚ) * (t : ℚ) = ((4 * t : ℤ) : ℚ) := by push_cast; ring
        rw [hcast, pyInt_intCast]
      rw [hp]
      ring

/-- Witness for C6 at `t = -1` on the upper boundary register. -/
theorem C6_integer_boundary_roundtrip_witness :
    (set_alert_boundary_temp 2 ((-1 : ℤ) : ℚ)).err = none ∧
    ∃ hi lo : Nat,
      (set_alert_boundary_temp 2 ((-1 : ℤ) : ℚ)).events = [Ev.send [2, hi, lo]] ∧
      specDecode13 ((hi <<< 8) ||| lo) = 16 * (-1 : ℤ) :=
  C6_integer_boundary_roundtrip (-1) (by norm_num) (by norm_num) 2 (Or.inl rfl)

/-- C10: for every in-range input the encoded 13-bit word has its two low
bits clear, and interpreted as a 13-bit two's-complement count of
sixteenths of a degree it equals the input rounded toward zero to a whole
quarter degree. -/
theorem C10_boundary_word_truncates (v : ℚ) (h1 : -128 ≤ v) (h2 : v ≤ 127) :
    boundary_word v % 4 = 0 ∧
    ((specDecode13 (boundary_word v) : ℤ) : ℚ) / 16 = truncToQuarter v := by
  obtain ⟨ha, hb⟩ := boundary_decode v h1 h2
  refine ⟨ha, ?_⟩
  rw [hb, truncToQuarter]
  push_cast
  ring

/-- Witness for C10 at the concrete negative fractional input `-13/10`. -/
theorem C10_boundary_word_truncates_witness :
    boundary_word (-13 / 10) % 4 = 0 ∧
    ((specDecode13 (boundary_word (-13 / 10)) : ℤ) : ℚ) / 16 =
      truncToQuarter (-13 / 10) :=
  C10_boundary_word_truncates (-13 / 10) (by norm_num) (by norm_num)

end MCP9808
